import Mathlib

/-!
Verification of the heartwood repository's specification claims against a
shallow embedding of its source code.

The embedding covers:
* `radicle-crdt/src/ord.rs` — the `Max` CRDT and its semilattice join;
* `radicle-cli/src/commands/sync.rs` — the sync command's argument parsing
  and the fetch / announce orchestration;
* `radicle/src/node.rs` — the `Node` control-socket handle;
* the protocol engine's gossip and reconnection behaviour, which is not part
  of the provided sources (only its tests are), modelled from the spec.

Machine integers (`usize` counts, replica numbers) are modelled as `Nat`:
none of the verified properties involve values anywhere near overflow.
-/

namespace Crdt

/-- Embeds `Max<T>` from `radicle-crdt/src/ord.rs`: a newtype holding one
value of `T`. -/
structure Max (T : Type) where
  val : T
deriving DecidableEq, Repr

/-- Embeds `Max::merge` (ord.rs lines 22-28): `if other.0 > self.0 { self.0 = other.0 }`,
returning the updated `self`.  Rust's `other.0 > self.0` is `self.val < other.val`. -/
def Max.merge {T : Type} [Preorder T] [DecidableRel (fun a b : T => a < b)]
    (s other : Max T) : Max T :=
  if s.val < other.val then { val := other.val } else s

/-- Embeds `Semilattice::join` for `Max<T>` (ord.rs lines 59-67):
`if other.0 > self.0 { other } else { self }`. -/
def Max.join {T : Type} [Preorder T] [DecidableRel (fun a b : T => a < b)]
    (s other : Max T) : Max T :=
  if s.val < other.val then other else s

/-- Two `Max` values with equal payloads are equal. -/
theorem Max.val_injective {T : Type} (a b : Max T) (h : a.val = b.val) : a = b := by
  cases a
  cases b
  simpa using h

/-- `merge` and `join` compute the same value (the spec treats them as the
same operation). -/
theorem Max.merge_eq_join {T : Type} [Preorder T] [DecidableRel (fun a b : T => a < b)]
    (a b : Max T) : Max.merge a b = Max.join a b := by
  unfold Max.merge Max.join
  split_ifs
  · rfl
  · rfl

/-- Over a linear order the payload of a join is the maximum of the payloads. -/
theorem Max.join_val {T : Type} [LinearOrder T] (a b : Max T) :
    (Max.join a b).val = max a.val b.val := by
  unfold Max.join
  split_ifs with h
  · exact (max_eq_right h.le).symm
  · exact (max_eq_left (not_lt.mp h)).symm

/-- A decidable strict order on `Nat × Nat` under the (partial) product
order, witnessing that `Nat × Nat` is a `PartialOrd` with incomparable
elements, as Rust's `PartialOrd` allows. -/
instance prodNatDecidableLT : DecidableRel (fun a b : Nat × Nat => a < b) :=
  fun _ _ => decidable_of_iff _ (Prod.lt_iff).symm

/-- C7 counterexample: over the product partial order on `Nat × Nat`,
`(0,1)` and `(1,0)` are incomparable, and `Max.join` is not commutative on
them — the claim's "for all `T` partially ordered" fails. -/
theorem max_join_not_comm_on_partial_order :
    Max.join ⟨((0 : Nat), (1 : Nat))⟩ ⟨(1, 0)⟩ ≠ Max.join ⟨(1, 0)⟩ ⟨(0, 1)⟩ := by
  decide

/-- C7 (amended): over a *linearly* ordered payload type, `Max.join`
(equally `Max.merge`) is a semilattice join: commutative, associative and
idempotent. -/
theorem max_join_semilattice {T : Type} [LinearOrder T] (a b c : Max T) :
    Max.join a b = Max.join b a ∧
      Max.join (Max.join a b) c = Max.join a (Max.join b c) ∧
      Max.join a a = a := by
  refine ⟨?_, ?_, ?_⟩
  · exact Max.val_injective _ _ (by rw [Max.join_val, Max.join_val, max_comm])
  · exact Max.val_injective _ _ (by rw [Max.join_val, Max.join_val, Max.join_val,
      Max.join_val, max_assoc])
  · exact Max.val_injective _ _ (by rw [Max.join_val, max_self])

end Crdt

namespace Cli

/-- Embeds `SortBy` from `radicle-cli/src/commands/sync.rs`. -/
inductive SortBy
  | nid
  | alias
  | status
deriving DecidableEq, Repr

/-- Embeds `SyncDirection` (sync.rs lines 163-169). -/
inductive SyncDirection
  | fetch
  | announce
  | both
deriving DecidableEq, Repr

/-- Embeds `RepoSync` (sync.rs lines 118-124): replica count plus a
`BTreeSet` of seed node ids (node ids modelled as `Nat`, the set as
`Finset Nat`). -/
structure RepoSync where
  replicas : Nat
  seeds : Finset Nat
deriving DecidableEq

/-- Embeds `SyncMode` (sync.rs lines 99-106). -/
inductive SyncMode
  | repo (settings : RepoSync) (direction : SyncDirection)
  | inventory
deriving DecidableEq

/-- Embeds `Operation` (sync.rs lines 71-76). -/
inductive Operation
  | synchronize (mode : SyncMode)
  | status
deriving DecidableEq

/-- Embeds `Options` (sync.rs lines 171-178); the repository id is a `Nat`
and the timeout its number of seconds. -/
structure Options where
  rid : Option Nat
  verbose : Bool
  timeout : Nat
  sortBy : SortBy
  op : Operation
deriving DecidableEq

/-- A positional `Value` token as seen by the parser loop: either the word
`"s"`/`"status"`, or anything else, which `term::args::rid` parses to a
repository id (`some`) or rejects (`none`). -/
inductive ValueTok
  | statusWord
  | ridTok (parsed : Option Nat)
deriving DecidableEq, Repr

/-- One argument as produced by the `lexopt` layer in
`Options::from_args` (sync.rs lines 196-250).  Flags with values carry the
result of the external value parser (`term::args::number`,
`term::args::nid`, `SortBy::from_str`, `term::args::parse_value`): `none`
covers both a missing value and a parse failure, either of which makes the
corresponding `?` return an error. -/
inductive Arg
  | verbose
  | fetch
  | announce
  | inventory
  | replicas (parsed : Option Nat)
  | seed (parsed : Option Nat)
  | sortByArg (parsed : Option SortBy)
  | timeoutArg (parsed : Option Nat)
  | help
  | value (v : ValueTok)
  | unexpected
deriving DecidableEq, Repr

/-- The mutable state of the `while let` loop in `Options::from_args`
(sync.rs lines 185-194). -/
structure ParseState where
  verbose : Bool
  timeout : Nat
  rid : Option Nat
  fetch : Bool
  announce : Bool
  inventory : Bool
  replicas : Option Nat
  seeds : Finset Nat
  sortBy : SortBy
  op : Option Operation
deriving DecidableEq

/-- Initial values of the loop state (sync.rs lines 185-194; the default
timeout is 9 seconds). -/
def ParseState.start : ParseState :=
  { verbose := false, timeout := 9, rid := none, fetch := false,
    announce := false, inventory := false, replicas := none,
    seeds := ∅, sortBy := SortBy.status, op := none }

/-- One iteration of the argument loop (sync.rs lines 196-250). -/
def parseStep (s : ParseState) : Arg → Except String ParseState
  | Arg.verbose => Except.ok { s with verbose := true }
  | Arg.fetch => Except.ok { s with fetch := true }
  | Arg.replicas none => Except.error "invalid value for `--replicas`"
  | Arg.replicas (some count) =>
      if count = 0 then Except.error "value for `--replicas` must be greater than zero"
      else Except.ok { s with replicas := some count }
  | Arg.seed none => Except.error "invalid value for `--seed`"
  | Arg.seed (some nid) => Except.ok { s with seeds := insert nid s.seeds }
  | Arg.announce => Except.ok { s with announce := true }
  | Arg.inventory => Except.ok { s with inventory := true }
  | Arg.sortByArg parsed =>
      if s.op = some Operation.status then
        match parsed with
        | none => Except.error "invalid `--sort-by` field"
        | some v => Except.ok { s with sortBy := v }
      else Except.error "unexpected argument `--sort-by`"
  | Arg.timeoutArg none => Except.error "invalid value for `--timeout`"
  | Arg.timeoutArg (some secs) => Except.ok { s with timeout := secs }
  | Arg.help => Except.error "help requested"
  | Arg.value v =>
      if s.rid = none then
        match v with
        | ValueTok.statusWord => Except.ok { s with op := some Operation.status }
        | ValueTok.ridTok none => Except.error "invalid repository id"
        | ValueTok.ridTok (some r) => Except.ok { s with rid := some r }
      else Except.error "unexpected argument"
  | Arg.unexpected => Except.error "unexpected argument"

/-- The `while let Some(arg) = parser.next()?` loop. -/
def runParse (s : ParseState) : List Arg → Except String ParseState
  | [] => Except.ok s
  | a :: rest =>
      match parseStep s a with
      | Except.error e => Except.error e
      | Except.ok s1 => runParse s1 rest

/-- Embeds `Options::from_args` (sync.rs lines 181-289): run the argument
loop, then build the `SyncMode` — rejecting `--inventory` combined with
`--fetch` or `--announce` — and assemble the `Options`. -/
def fromArgs (args : List Arg) : Except String Options :=
  match runParse ParseState.start args with
  | Except.error e => Except.error e
  | Except.ok s =>
      if s.inventory && (s.fetch || s.announce) then
        Except.error "`--inventory` cannot be used with `--fetch` or `--announce`"
      else
        let sync :=
          if s.inventory then SyncMode.inventory
          else
            let direction :=
              match s.fetch, s.announce with
              | true, true => SyncDirection.both
              | false, false => SyncDirection.both
              | true, false => SyncDirection.fetch
              | false, true => SyncDirection.announce
            let settings : RepoSync :=
              if s.seeds = ∅ then
                { replicas := s.replicas.getD 3, seeds := s.seeds }
              else
                { replicas := s.replicas.getD s.seeds.card, seeds := s.seeds }
            SyncMode.repo settings direction
        Except.ok
          { rid := s.rid, verbose := s.verbose, timeout := s.timeout,
            sortBy := s.sortBy, op := s.op.getD (Operation.synchronize sync) }

/-- If a flag of the loop state holds and every later step succeeds, the
flag still holds at the end: no arm of the loop ever clears `fetch`,
`announce` or `inventory`. -/
theorem runParse_flag_mono (f : ParseState → Bool)
    (hstep : ∀ s a s1, parseStep s a = Except.ok s1 → f s = true → f s1 = true) :
    ∀ (args : List Arg) (s0 s : ParseState),
      runParse s0 args = Except.ok s → f s0 = true → f s = true := by
  intro args
  induction args with
  | nil =>
      intro s0 s h h0
      simp only [runParse] at h
      cases h
      exact h0
  | cons a rest ih =>
      intro s0 s h h0
      simp only [runParse] at h
      cases hs : parseStep s0 a with
      | error e => rw [hs] at h; cases h
      | ok s1 =>
          rw [hs] at h
          exact ih s1 s h (hstep s0 a s1 hs h0)

/-- If an argument occurs in the list, a flag that its step-arm sets and
that no arm clears holds in the final state of a successful parse loop. -/
theorem runParse_flag_of_mem (f : ParseState → Bool) (t : Arg)
    (hstep : ∀ s a s1, parseStep s a = Except.ok s1 → f s = true → f s1 = true)
    (hset : ∀ s s1, parseStep s t = Except.ok s1 → f s1 = true) :
    ∀ (args : List Arg) (s0 s : ParseState),
      runParse s0 args = Except.ok s → t ∈ args → f s = true := by
  intro args
  induction args with
  | nil =>
      intro s0 s _ hmem
      cases hmem
  | cons a rest ih =>
      intro s0 s h hmem
      simp only [runParse] at h
      cases hs : parseStep s0 a with
      | error e => rw [hs] at h; cases h
      | ok s1 =>
          rw [hs] at h
          rcases List.mem_cons.mp hmem with heq | hrest
          · subst heq
            exact runParse_flag_mono f hstep rest s1 s h (hset s0 s1 hs)
          · exact ih s1 s h hrest

end Cli
namespace Cli

/-- No arm of the argument loop ever clears the `inventory`, `fetch` or
`announce` flags. -/
theorem parseStep_flags_mono (s : ParseState) (a : Arg) (s1 : ParseState)
    (h : parseStep s a = Except.ok s1) :
    (s.inventory = true → s1.inventory = true) ∧
      (s.fetch = true → s1.fetch = true) ∧
      (s.announce = true → s1.announce = true) := by
  cases a with
  | verbose => simp only [parseStep] at h; cases h; exact ⟨id, id, id⟩
  | fetch => simp only [parseStep] at h; cases h; exact ⟨id, fun _ => rfl, id⟩
  | announce => simp only [parseStep] at h; cases h; exact ⟨id, id, fun _ => rfl⟩
  | inventory => simp only [parseStep] at h; cases h; exact ⟨fun _ => rfl, id, id⟩
  | replicas p =>
      cases p with
      | none => simp [parseStep] at h
      | some c =>
          simp only [parseStep] at h
          split at h
          · cases h
          · cases h; exact ⟨id, id, id⟩
  | seed p =>
      cases p with
      | none => simp [parseStep] at h
      | some nid => simp only [parseStep] at h; cases h; exact ⟨id, id, id⟩
  | sortByArg p =>
      simp only [parseStep] at h
      split at h
      · cases p with
        | none => cases h
        | some v => cases h; exact ⟨id, id, id⟩
      · cases h
  | timeoutArg p =>
      cases p with
      | none => simp [parseStep] at h
      | some t => simp only [parseStep] at h; cases h; exact ⟨id, id, id⟩
  | help => simp [parseStep] at h
  | value v =>
      simp only [parseStep] at h
      split at h
      · cases v with
        | statusWord => cases h; exact ⟨id, id, id⟩
        | ridTok p =>
            cases p with
            | none => cases h
            | some r => cases h; exact ⟨id, id, id⟩
      · cases h
  | unexpected => simp [parseStep] at h

/-- C8: whenever `--inventory` appears together with `--fetch` or
`--announce` in the argument vector, `Options::from_args` returns an error
rather than an `Options` value. -/
theorem sync_args_inventory_exclusive (args : List Arg)
    (hinv : Arg.inventory ∈ args) (hfa : Arg.fetch ∈ args ∨ Arg.announce ∈ args) :
    ∃ msg, fromArgs args = Except.error msg := by
  unfold fromArgs
  cases hrun : runParse ParseState.start args with
  | error e => exact ⟨e, rfl⟩
  | ok s =>
      have hi : s.inventory = true :=
        runParse_flag_of_mem (fun t => t.inventory) Arg.inventory
          (fun s a s1 h => (parseStep_flags_mono s a s1 h).1)
          (fun s s1 h => by simp only [parseStep] at h; cases h; rfl)
          args ParseState.start s hrun hinv
      have hfa1 : s.fetch = true ∨ s.announce = true := by
        rcases hfa with hf | ha
        · exact Or.inl (runParse_flag_of_mem (fun t => t.fetch) Arg.fetch
            (fun s a s1 h => (parseStep_flags_mono s a s1 h).2.1)
            (fun s s1 h => by simp only [parseStep] at h; cases h; rfl)
            args ParseState.start s hrun hf)
        · exact Or.inr (runParse_flag_of_mem (fun t => t.announce) Arg.announce
            (fun s a s1 h => (parseStep_flags_mono s a s1 h).2.2)
            (fun s s1 h => by simp only [parseStep] at h; cases h; rfl)
            args ParseState.start s hrun ha)
      have hcond : (s.inventory && (s.fetch || s.announce)) = true := by
        rcases hfa1 with h1 | h1 <;> simp [hi, h1]
      refine ⟨"`--inventory` cannot be used with `--fetch` or `--announce`", ?_⟩
      simp [hcond]

/-- Witness for C8 at the concrete argument vector
`[--inventory, --fetch]`. -/
theorem sync_args_inventory_exclusive_witness :
    (Arg.inventory ∈ [Arg.inventory, Arg.fetch] ∧
        (Arg.fetch ∈ [Arg.inventory, Arg.fetch] ∨
          Arg.announce ∈ [Arg.inventory, Arg.fetch])) ∧
      ∃ msg, fromArgs [Arg.inventory, Arg.fetch] = Except.error msg :=
  ⟨⟨by decide, Or.inl (by decide)⟩,
    sync_args_inventory_exclusive [Arg.inventory, Arg.fetch] (by decide) (Or.inl (by decide))⟩

end Cli
namespace NodeHandle

/-- Outcome of running a Rust function that may diverge by panicking
(`todo!()`): either it panics or it returns a value. -/
inductive Outcome (α : Type)
  | panics
  | returns (v : α)
deriving DecidableEq, Repr

/-- Embeds `node::Error` from `radicle/src/node.rs` (lines 17-21): the only
variant wraps an `io::Error`. -/
inductive NodeError
  | connect
deriving DecidableEq, Repr

/-- The behaviour of the Unix control-socket stream a `Node` holds: whether
the `writeln!` in `Node::call` succeeds, and the successive results of the
`lines()` reply iterator (each line either a reply string or an
`io::Error`, whose content is irrelevant here). -/
structure Stream where
  writeOk : Bool
  lines : List (Except Unit String)

/-- Whether a reply line was read without an `io::Error`. -/
def lineOk : Except Unit String → Bool
  | Except.ok _ => true
  | Except.error _ => false

/-- Embeds `Node::call` (node.rs lines 55-63): write `"{cmd} {arg}"` to the
stream and return the reply-line iterator.  A failed write surfaces as
`Error::Connect` through `?` and `#[from]`. -/
def call (s : Stream) : Except NodeError (List (Except Unit String)) :=
  if s.writeOk then Except.ok s.lines else Except.error NodeError.connect

/-- The command line `Node::call` writes for a given command and argument,
when the write succeeds. -/
def callWrites (s : Stream) (cmd arg : String) : List String :=
  if s.writeOk then [cmd ++ " " ++ arg] else []

/-- Embeds the `for line in self.call(..)? { let line = line?; .. }` loop
shared by `track`, `untrack`, `fetch` and `announce_refs`: each line is
only logged; the first `io::Error` aborts with `Error::Connect`. -/
def drainLines : List (Except Unit String) → Except NodeError Unit
  | [] => Except.ok ()
  | Except.error _ :: _ => Except.error NodeError.connect
  | Except.ok _ :: rest => drainLines rest

/-- The observable effect of one handle method: the lines written to the
control socket, and the call's outcome. -/
structure CallEffect (α : Type) where
  writes : List String
  result : Outcome α

/-- Embeds `Handle::track` for `Node` (node.rs lines 75-81): call
`track <id>`, drain the reply lines, and return `Ok(true)` regardless of
their content. -/
def track (s : Stream) (idArg : String) : CallEffect (Except NodeError Bool) :=
  { writes := callWrites s "track" idArg
  , result := Outcome.returns (
      match call s with
      | Except.error e => Except.error e
      | Except.ok ls =>
          match drainLines ls with
          | Except.error e => Except.error e
          | Except.ok _ => Except.ok true) }

/-- Embeds `Handle::untrack` for `Node` (node.rs lines 83-89), identical to
`track` but for the command word. -/
def untrack (s : Stream) (idArg : String) : CallEffect (Except NodeError Bool) :=
  { writes := callWrites s "untrack" idArg
  , result := Outcome.returns (
      match call s with
      | Except.error e => Except.error e
      | Except.ok ls =>
          match drainLines ls with
          | Except.error e => Except.error e
          | Except.ok _ => Except.ok true) }

/-- Embeds `Handle::shutdown` for `Node` (node.rs lines 99-101): the body
is `todo!()`, which panics before touching the stream. -/
def shutdown (_s : Stream) : CallEffect (Except NodeError Unit) :=
  { writes := [], result := Outcome.panics }

/-- C9: `Node::shutdown` always panics (its body is `todo!()`) and writes
no shutdown command to the control socket, whatever the stream's state. -/
theorem node_shutdown_panics (s : Stream) :
    (shutdown s).result = Outcome.panics ∧ (shutdown s).writes = [] :=
  ⟨rfl, rfl⟩

/-- If every reply line is an `Ok`, draining them succeeds. -/
theorem drainLines_ok (ls : List (Except Unit String))
    (h : ∀ l ∈ ls, lineOk l = true) : drainLines ls = Except.ok () := by
  induction ls with
  | nil => rfl
  | cons l rest ih =>
      cases l with
      | error e => exact absurd (h _ (List.mem_cons_self _ _)) (by simp [lineOk])
      | ok v =>
          simp only [drainLines]
          exact ih fun x hx => h x (List.mem_cons_of_mem _ hx)

/-- C10: whenever the write and every reply-line read succeed,
`Node::track` and `Node::untrack` return `Ok(true)` regardless of the
replies' content; and in every case their boolean result can only be
`true`, since the node's reply is never parsed. -/
theorem node_track_untrack_ok_true (s : Stream) (idArg : String)
    (hw : s.writeOk = true) (hl : ∀ l ∈ s.lines, lineOk l = true) :
    (track s idArg).result = Outcome.returns (Except.ok true) ∧
      (untrack s idArg).result = Outcome.returns (Except.ok true) ∧
      ∀ (t : Stream) (a : String) (b : Bool),
        ((track t a).result = Outcome.returns (Except.ok b) ∨
            (untrack t a).result = Outcome.returns (Except.ok b)) →
          b = true := by
  have hcall : call s = Except.ok s.lines := by simp [call, hw]
  have hdrain := drainLines_ok s.lines hl
  refine ⟨?_, ?_, ?_⟩
  · simp [track, hcall, hdrain]
  · simp [untrack, hcall, hdrain]
  · intro t a b hb
    rcases hb with hb | hb
    · simp only [track] at hb
      cases hc : call t with
      | error e => rw [hc] at hb; simp at hb
      | ok ls =>
          rw [hc] at hb
          simp only [] at hb
          cases hd : drainLines ls with
          | error e => rw [hd] at hb; simp at hb
          | ok u => rw [hd] at hb; simp at hb; exact hb
    · simp only [untrack] at hb
      cases hc : call t with
      | error e => rw [hc] at hb; simp at hb
      | ok ls =>
          rw [hc] at hb
          simp only [] at hb
          cases hd : drainLines ls with
          | error e => rw [hd] at hb; simp at hb
          | ok u => rw [hd] at hb; simp at hb; exact hb

/-- Witness for C10 at a concrete stream with a successful write and one
successful reply line. -/
theorem node_track_untrack_ok_true_witness :
    ((⟨true, [Except.ok "ok"]⟩ : Stream).writeOk = true ∧
        ∀ l ∈ (⟨true, [Except.ok "ok"]⟩ : Stream).lines, lineOk l = true) ∧
      (track ⟨true, [Except.ok "ok"]⟩ "rad:z123").result =
        Outcome.returns (Except.ok true) :=
  ⟨⟨rfl, by intro l hl; simp at hl; subst hl; rfl⟩,
    (node_track_untrack_ok_true ⟨true, [Except.ok "ok"]⟩ "rad:z123" rfl
      (by intro l hl; simp at hl; subst hl; rfl)).1⟩

end NodeHandle
namespace SyncCmd

/-- Sync state of a seed, as reported by the node (`SyncStatus` in the
spec's data model §3; the head references are irrelevant to the claims). -/
inductive SeedSync
  | synced
  | outOfSync
deriving DecidableEq, Repr

/-- Modelled from the spec: the node's `Seed` record for a repository
(spec §3: "a (NID, [Address], sync status) record"), together with whether
the seed's session is currently connected, which `Seeds::partition` /
`Seeds::connected` use; the `radicle::node::Seed` type itself is not among
the provided sources.  Node ids and addresses are modelled as `Nat`. -/
structure Seed where
  nid : Nat
  addrs : List Nat
  connected : Bool
  sync : Option SeedSync
deriving DecidableEq, Repr

/-- `Seed::is_synced`: the seed's status is `Synced`. -/
def Seed.isSynced (s : Seed) : Bool :=
  decide (s.sync = some SeedSync.synced)

/-- One entry of `node.sessions()`: a peer id and whether the session state
is connected (spec §3/§6). -/
structure Session where
  nid : Nat
  connected : Bool
deriving DecidableEq, Repr

/-- Embeds `FetchResult` (radicle::node): success or failure; the reason
and the fetched refs are irrelevant to the claims. -/
inductive FetchResult
  | success
  | failed
deriving DecidableEq, Repr

/-- Embeds `FetchResults`: the list of per-seed results in the order they
were pushed; each entry records one `fetch_from` call, i.e. one Fetch
issued to the node. -/
abbrev FetchResults := List (Nat × FetchResult)

/-- `FetchResults::success().count()`. -/
def successCount (rs : FetchResults) : Nat :=
  (rs.filter (fun p => decide (p.snd = FetchResult.success))).length

/-- `FetchResults::contains(&nid)`. -/
def containsNid (rs : FetchResults) (nid : Nat) : Bool :=
  rs.any (fun p => decide (p.fst = nid))

/-- The result of `node.announce(..)`: the set of peers that confirmed
syncing and the peers that timed out. -/
structure AnnounceResult where
  synced : List Nat
  timeout : List Nat

/-- The local node's responses to the handle calls `fetch` and
`announce_refs` make, for a fixed repository id: `nid()`, `seeds(rid)`,
`sessions()`, the per-peer result of `fetch(rid, nid, timeout)`, the
per-address outcome of `connect(nid, addr, ..)`, whether
`storage.repository(rid)` succeeds, the identity document's visibility,
and the result of `announce(rid, targets, ..)` as a function of the
targets.  The claims are about the orchestration given these responses, so
transport errors of the control socket itself are not modelled. -/
structure NodeEnv where
  nid : Nat
  seeds : List Seed
  sessions : List Session
  fetchRes : Nat → FetchResult
  connectRes : Nat → Nat → Bool
  repoAvailable : Bool
  public : Bool
  visible : Nat → Bool
  announceRes : List Nat → AnnounceResult

/-- The number of seeds returned for the repository whose node id differs
from the local one: `seeds.iter().filter(|s| s.nid != local).count()`
(sync.rs line 530, and `max_replicas` at line 440). -/
def nonLocalSeedCount (env : NodeEnv) : Nat :=
  (env.seeds.filter (fun s => decide (s.nid ≠ env.nid))).length

/-- The replica target of `fetch` (sync.rs lines 527-530):
`settings.replicas.min(seeds.iter().filter(|s| s.nid != local).count())`. -/
def fetchTarget (env : NodeEnv) (settings : Cli.RepoSync) : Nat :=
  min settings.replicas (nonLocalSeedCount env)

/-- The explicit seeds of the sync settings in the order `BTreeSet`
iteration yields them (ascending). -/
def seedsAsc (s : Finset Nat) : List Nat :=
  s.sort (fun a b => a ≤ b)

/-- Embeds the explicit-seed phase of `fetch` (sync.rs lines 535-543):
for each settings seed, skip it with a warning when no session exists,
otherwise `fetch_from` it and push the result. -/
def explicitPhase (env : NodeEnv) : List Nat → FetchResults
  | [] => []
  | nid :: rest =>
      if env.sessions.any (fun s => decide (s.nid = nid)) then
        (nid, env.fetchRes nid) :: explicitPhase env rest
      else explicitPhase env rest

/-- Embeds the selection of the connected-seed phase of `fetch` (sync.rs
lines 548-554): connected seeds whose nid is not already in the results,
`take`n up to `replicas`. -/
def connectedSelection (connected : List Seed) (results : FetchResults)
    (replicas : Nat) : List Nat :=
  ((connected.filter (fun c => !(containsNid results c.nid))).map Seed.nid).take replicas

/-- Embeds the connected-seed phase of `fetch` (sync.rs lines 548-558):
`fetch_from` each selected nid and push its result. -/
def connectedPhase (env : NodeEnv) (results : FetchResults)
    (sel : List Nat) : FetchResults :=
  results ++ sel.map (fun n => (n, env.fetchRes n))

/-- Embeds `connect` (sync.rs lines 583-617): try the seed's addresses in
order and report whether any attempt returned `Connected`. -/
def connectSeed (env : NodeEnv) (nid : Nat) : List Nat → Bool
  | [] => false
  | a :: rest => if env.connectRes nid a then true else connectSeed env nid rest

/-- Embeds the disconnected-seed loop of `fetch` (sync.rs lines 560-578):
while the success count is below the target, pop a disconnected seed
(`Vec::pop` takes the last element, so this walks the reversed list), skip
the local node, and when a connection succeeds `fetch_from` it and push
the result. -/
def disconnectedLoop (env : NodeEnv) (replicas : Nat) :
    FetchResults → List Seed → FetchResults
  | results, [] => results
  | results, seed :: rest =>
      if successCount results < replicas then
        if seed.nid = env.nid then disconnectedLoop env replicas results rest
        else if connectSeed env seed.nid seed.addrs then
          disconnectedLoop env replicas
            (results ++ [(seed.nid, env.fetchRes seed.nid)]) rest
        else disconnectedLoop env replicas results rest
      else results

/-- Embeds `fetch` (sync.rs lines 518-581): compute the replica target,
partition the seeds, run the explicit phase, return early when it already
met the target, then run the connected phase and the disconnected loop. -/
def fetch (env : NodeEnv) (settings : Cli.RepoSync) : FetchResults :=
  let replicas := fetchTarget env settings
  let parts := env.seeds.partition (fun s => s.connected)
  let explicitResults := explicitPhase env (seedsAsc settings.seeds)
  if replicas ≤ successCount explicitResults then explicitResults
  else
    disconnectedLoop env replicas
      (connectedPhase env explicitResults
        (connectedSelection parts.fst explicitResults replicas))
      parts.snd.reverse

/-- Filtering on a projected attribute and projecting after filtering give
lists of the same length. -/
theorem length_filter_comp {α β : Type} (l : List α) (f : α → β) (p : β → Bool) :
    (l.filter (fun s => p (f s))).length = ((l.map f).filter p).length := by
  induction l with
  | nil => rfl
  | cons x xs ih => cases hx : p (f x) <;> simp [List.filter_cons, hx, ih]

/-- C4: when the node returns seeds with pairwise-distinct node ids (it
reports each seed once), the replica target `fetch` computes is the
minimum of the requested replica count and the cardinality of the set of
returned seed ids with the local node id removed. -/
theorem fetch_target_is_min_of_nonlocal (env : NodeEnv) (settings : Cli.RepoSync)
    (h : (env.seeds.map Seed.nid).Nodup) :
    fetchTarget env settings =
      min settings.replicas (((env.seeds.map Seed.nid).toFinset) \ {env.nid}).card := by
  unfold fetchTarget nonLocalSeedCount
  congr 1
  rw [← Finset.erase_eq]
  have h2 : ((env.seeds.map Seed.nid).toFinset).erase env.nid
      = ((env.seeds.map Seed.nid).filter (fun n => decide (n ≠ env.nid))).toFinset := by
    rw [List.toFinset_filter]
    simp [Finset.filter_ne']
  rw [h2, List.toFinset_card_of_nodup (h.filter _)]
  exact length_filter_comp env.seeds Seed.nid (fun n => decide (n ≠ env.nid))

/-- A concrete three-seed environment (local node id 1) used to witness
C4. -/
def envC4 : NodeEnv :=
  { nid := 1
  , seeds := [⟨1, [], true, none⟩, ⟨2, [], true, none⟩, ⟨3, [], false, none⟩]
  , sessions := []
  , fetchRes := fun _ => FetchResult.failed
  , connectRes := fun _ _ => false
  , repoAvailable := true
  , public := true
  , visible := fun _ => true
  , announceRes := fun _ => ⟨[], []⟩ }

/-- Witness for C4 at a concrete environment with three seeds, one of them
the local node. -/
theorem fetch_target_is_min_of_nonlocal_witness :
    ((envC4.seeds.map Seed.nid).Nodup) ∧
      fetchTarget envC4 ⟨3, ∅⟩ =
        min 3 (((envC4.seeds.map Seed.nid).toFinset \ {envC4.nid}).card) :=
  ⟨by decide, fetch_target_is_min_of_nonlocal envC4 ⟨3, ∅⟩ (by decide)⟩

end SyncCmd
namespace SyncCmd

/-- A concrete environment for C3: local node 0; three connected seeds
10, 20, 30; a session open only to 10; every fetch succeeds. -/
def envC3 : NodeEnv :=
  { nid := 0
  , seeds := [⟨10, [], true, none⟩, ⟨20, [], true, none⟩, ⟨30, [], true, none⟩]
  , sessions := [⟨10, true⟩]
  , fetchRes := fun _ => FetchResult.success
  , connectRes := fun _ _ => false
  , repoAvailable := true
  , public := true
  , visible := fun _ => true
  , announceRes := fun _ => ⟨[], []⟩ }

/-- Sync settings for C3: replica target 2, explicit seed 10. -/
def settingsC3 : Cli.RepoSync :=
  { replicas := 2, seeds := {10} }

/-- C3 counterexample: with target 2 and one success from the explicit
phase, the connected phase still selects and fetches `replicas` = 2 more
seeds — `take(replicas)` at sync.rs line 553 is not bounded by
`target - successes` — so `fetch` issues 3 fetches where the claim allows
at most 2. -/
theorem fetch_connected_phase_exceeds_remaining :
    ¬ ((connectedSelection ((envC3.seeds.partition (fun s => s.connected)).fst)
          (explicitPhase envC3 (seedsAsc settingsC3.seeds))
          (fetchTarget envC3 settingsC3)).length
        ≤ fetchTarget envC3 settingsC3 -
            successCount (explicitPhase envC3 (seedsAsc settingsC3.seeds))) ∧
      fetch envC3 settingsC3 =
        [(10, FetchResult.success), (20, FetchResult.success), (30, FetchResult.success)] := by
  have hs : seedsAsc settingsC3.seeds = [10] := by
    simp [settingsC3, seedsAsc, Finset.sort_singleton]
  rw [hs]
  constructor
  · decide
  · unfold fetch
    rw [hs]
    decide

/-- C3 (amended): the connected-seed phase issues Fetch only to connected
seeds that were not already attempted in the explicit phase, and to at
most `target` of them (the code caps the phase at `replicas`, not at
`replicas - successes`). -/
theorem fetch_connected_phase_cap (env : NodeEnv) (settings : Cli.RepoSync) :
    (connectedSelection ((env.seeds.partition (fun s => s.connected)).fst)
        (explicitPhase env (seedsAsc settings.seeds))
        (fetchTarget env settings)).length
      ≤ fetchTarget env settings ∧
    ∀ n ∈ connectedSelection ((env.seeds.partition (fun s => s.connected)).fst)
        (explicitPhase env (seedsAsc settings.seeds))
        (fetchTarget env settings),
      (∃ c ∈ (env.seeds.partition (fun s => s.connected)).fst, c.nid = n) ∧
        containsNid (explicitPhase env (seedsAsc settings.seeds)) n = false := by
  constructor
  · unfold connectedSelection
    exact (List.length_take _ _).le.trans (min_le_left _ _)
  · intro n hn
    unfold connectedSelection at hn
    have hn1 := List.take_subset _ _ hn
    rcases List.mem_map.mp hn1 with ⟨c, hc, rfl⟩
    rcases List.mem_filter.mp hc with ⟨hcmem, hcb⟩
    refine ⟨⟨c, hcmem, rfl⟩, ?_⟩
    simpa using hcb

end SyncCmd
namespace SyncCmd

/-- The node ids of the seeds currently in sync with us
(`synced` at sync.rs line 433, collected at line 443). -/
def syncedNids (env : NodeEnv) : List Nat :=
  (env.seeds.filter Seed.isSynced).map Seed.nid

/-- `replicas` at sync.rs lines 435-438: synced seeds not counting the
local replica. -/
def syncedNonLocalCount (env : NodeEnv) : Nat :=
  (env.seeds.filter (fun s => Seed.isSynced s && decide (s.nid ≠ env.nid))).length

/-- `is_seeds_synced` at sync.rs lines 442-445: every explicit settings
seed is among the synced node ids. -/
def isSeedsSynced (env : NodeEnv) (settings : Cli.RepoSync) : Bool :=
  decide (∀ n ∈ settings.seeds, n ∈ syncedNids env)

/-- `is_replicas_synced` at sync.rs line 447: the synced non-local count
meets the desired replica count clamped by the maximum achievable
(`max_replicas`, sync.rs line 440, which is `nonLocalSeedCount`). -/
def isReplicasSynced (env : NodeEnv) (settings : Cli.RepoSync) : Bool :=
  decide (syncedNonLocalCount env ≥ min settings.replicas (nonLocalSeedCount env))

/-- The public-repository announce targets (sync.rs lines 455-458):
connected seeds that are not synced. -/
def connectedNotSynced (env : NodeEnv) : List Nat :=
  (env.seeds.filter (fun s => s.connected && !(Seed.isSynced s))).map Seed.nid

/-- The private-repository announce targets (sync.rs lines 460-464):
connected sessions visible to the identity document. -/
def privateTargets (env : NodeEnv) : List Nat :=
  (env.sessions.filter (fun s => s.connected && env.visible s.nid)).map Session.nid

/-- The errors `announce_refs` can return: the repository is not available
locally (sync.rs lines 423-427), or `all seeds timed out` (sync.rs
line 502). -/
inductive AnnErr
  | repoNotAvailable
  | allSeedsTimedOut
deriving DecidableEq, Repr

/-- The observable outcome of `announce_refs`: its return value, the list
of peers passed to `node.announce` (empty when no announce was issued),
and the timed-out peers reported as notices (sync.rs lines 498-500). -/
structure AnnounceOutcome where
  result : Except AnnErr Unit
  announcedTo : List Nat
  notices : List Nat

/-- Embeds the tail of `announce_refs` (sync.rs lines 467-504): return
success when there is nobody to announce to; otherwise announce, report
every timed-out seed as a notice, and fail with `all seeds timed out`
exactly when the synced set comes back empty. -/
def announceFin (env : NodeEnv) (unsynced : List Nat) : AnnounceOutcome :=
  if unsynced.isEmpty then ⟨Except.ok (), [], []⟩
  else
    let res := env.announceRes unsynced
    ⟨if res.synced.isEmpty then Except.error AnnErr.allSeedsTimedOut else Except.ok (),
      unsynced, res.timeout⟩

/-- Embeds `announce_refs` (sync.rs lines 416-505): fail when the
repository is not available locally; for a public repository return
success immediately when the explicit seeds are all synced and the replica
count is met, else announce to the connected-not-synced seeds; for a
private repository announce to the visible connected sessions. -/
def announceRefs (env : NodeEnv) (settings : Cli.RepoSync) : AnnounceOutcome :=
  if !env.repoAvailable then ⟨Except.error AnnErr.repoNotAvailable, [], []⟩
  else if env.public then
    if isSeedsSynced env settings && isReplicasSynced env settings then
      ⟨Except.ok (), [], []⟩
    else announceFin env (connectedNotSynced env)
  else announceFin env (privateTargets env)

/-- C5: for a locally available public repository, when every explicit
seed in the settings is synced and the count of synced seeds other than
the local node reaches `min(replicas, non-local seed count)`,
`announce_refs` returns success at once ("Nothing to announce") and issues
no announce call. -/
theorem announce_refs_already_in_sync (env : NodeEnv) (settings : Cli.RepoSync)
    (hrepo : env.repoAvailable = true) (hpub : env.public = true)
    (hseeds : ∀ n ∈ settings.seeds, n ∈ syncedNids env)
    (hcount : syncedNonLocalCount env ≥ min settings.replicas (nonLocalSeedCount env)) :
    (announceRefs env settings).result = Except.ok () ∧
      (announceRefs env settings).announcedTo = [] := by
  have h1 : isSeedsSynced env settings = true := by
    unfold isSeedsSynced
    exact decide_eq_true hseeds
  have h2 : isReplicasSynced env settings = true := by
    unfold isReplicasSynced
    exact decide_eq_true hcount
  unfold announceRefs
  rw [hrepo, hpub]
  simp [h1, h2]

/-- A concrete environment for the C5 witness: local node 1 with one
synced non-local seed 2. -/
def envC5 : NodeEnv :=
  { nid := 1
  , seeds := [⟨2, [], true, some SeedSync.synced⟩]
  , sessions := []
  , fetchRes := fun _ => FetchResult.failed
  , connectRes := fun _ _ => false
  , repoAvailable := true
  , public := true
  , visible := fun _ => true
  , announceRes := fun _ => ⟨[], []⟩ }

/-- Sync settings for the C5 witness: one replica, no explicit seeds. -/
def settingsC5 : Cli.RepoSync :=
  { replicas := 1, seeds := ∅ }

/-- Witness for C5: one synced non-local seed, replica target 1, no
explicit seeds. -/
theorem announce_refs_already_in_sync_witness :
    ((envC5.repoAvailable = true ∧ envC5.public = true ∧
        (∀ n ∈ (settingsC5 : Cli.RepoSync).seeds, n ∈ syncedNids envC5) ∧
        syncedNonLocalCount envC5 ≥
          min (settingsC5 : Cli.RepoSync).replicas (nonLocalSeedCount envC5)) ∧
      (announceRefs envC5 settingsC5).result = Except.ok () ∧
        (announceRefs envC5 settingsC5).announcedTo = []) :=
  ⟨⟨rfl, rfl, by decide, by decide⟩,
    announce_refs_already_in_sync envC5 settingsC5 rfl rfl (by decide) (by decide)⟩

end SyncCmd
namespace SyncCmd

/-- The failure semantics of the announce tail: `all seeds timed out`
exactly when peers were announced to and none confirmed; notices always
list the timed-out peers; any confirmation yields success. -/
theorem announceFin_spec (env : NodeEnv) (u : List Nat) :
    ((announceFin env u).result = Except.error AnnErr.allSeedsTimedOut ↔
       (announceFin env u).announcedTo ≠ [] ∧
         (env.announceRes (announceFin env u).announcedTo).synced = []) ∧
      ((announceFin env u).announcedTo ≠ [] →
        (announceFin env u).notices =
          (env.announceRes (announceFin env u).announcedTo).timeout) ∧
      ((announceFin env u).announcedTo ≠ [] →
        (env.announceRes (announceFin env u).announcedTo).synced ≠ [] →
          (announceFin env u).result = Except.ok ()) := by
  by_cases hu : u.isEmpty
  · simp [announceFin, hu]
  · have hne : u ≠ [] := by
      intro h
      rw [h] at hu
      exact hu rfl
    by_cases hs : (env.announceRes u).synced.isEmpty
    · have hs1 : (env.announceRes u).synced = [] := List.isEmpty_iff.mp hs
      simp [announceFin, hu, hne, hs, hs1]
    · have hs1 : (env.announceRes u).synced ≠ [] := by
        intro h
        rw [List.isEmpty_iff] at hs
        exact hs h
      simp [announceFin, hu, hne, hs, hs1]

/-- C6: `announce_refs` returns the `all seeds timed out` error exactly
when it announced to at least one peer and the announce came back with an
empty synced set; whenever it announced, every timed-out seed is reported
as a notice, and any seed confirming sync yields success regardless of
timeouts. -/
theorem announce_refs_all_timed_out_iff (env : NodeEnv) (settings : Cli.RepoSync) :
    ((announceRefs env settings).result = Except.error AnnErr.allSeedsTimedOut ↔
       (announceRefs env settings).announcedTo ≠ [] ∧
         (env.announceRes (announceRefs env settings).announcedTo).synced = []) ∧
      ((announceRefs env settings).announcedTo ≠ [] →
        (announceRefs env settings).notices =
          (env.announceRes (announceRefs env settings).announcedTo).timeout) ∧
      ((announceRefs env settings).announcedTo ≠ [] →
        (env.announceRes (announceRefs env settings).announcedTo).synced ≠ [] →
          (announceRefs env settings).result = Except.ok ()) := by
  unfold announceRefs
  cases hra : env.repoAvailable with
  | false => simp
  | true =>
      cases hpub : env.public with
      | false => simpa using announceFin_spec env (privateTargets env)
      | true =>
          by_cases hsync : (isSeedsSynced env settings && isReplicasSynced env settings) = true
          · simp [hsync]
          · simp only [Bool.not_eq_true] at hsync
            simpa [hsync] using announceFin_spec env (connectedNotSynced env)

/-- A concrete environment for the C6 witness: local node 1, one
connected, unsynced seed 2; announcing reports seed 2 synced. -/
def envC6 : NodeEnv :=
  { nid := 1
  , seeds := [⟨2, [], true, some SeedSync.outOfSync⟩]
  , sessions := []
  , fetchRes := fun _ => FetchResult.failed
  , connectRes := fun _ _ => false
  , repoAvailable := true
  , public := true
  , visible := fun _ => true
  , announceRes := fun _ => ⟨[2], []⟩ }

/-- Sync settings for the C6 witness. -/
def settingsC6 : Cli.RepoSync :=
  { replicas := 1, seeds := ∅ }

/-- Witness for C6 at a concrete environment: local node 1, one connected
unsynced seed 2, whose announce result reports seed 2 synced. -/
theorem announce_refs_all_timed_out_iff_witness :
    ((announceRefs envC6 settingsC6).result = Except.error AnnErr.allSeedsTimedOut ↔
       (announceRefs envC6 settingsC6).announcedTo ≠ [] ∧
         (envC6.announceRes (announceRefs envC6 settingsC6).announcedTo).synced = []) ∧
      ((announceRefs envC6 settingsC6).announcedTo ≠ [] →
        (announceRefs envC6 settingsC6).notices =
          (envC6.announceRes (announceRefs envC6 settingsC6).announcedTo).timeout) ∧
      ((announceRefs envC6 settingsC6).announcedTo ≠ [] →
        (envC6.announceRes (announceRefs envC6 settingsC6).announcedTo).synced ≠ [] →
          (announceRefs envC6 settingsC6).result = Except.ok ()) :=
  announce_refs_all_timed_out_iff envC6 settingsC6

end SyncCmd
namespace Gossip

/-- Modelled from the spec: the Routing Table (spec §3, §4.A), a map from
project id to the set of node ids claiming the project, as a function
`Pid → Finset Nid` with both ids modelled as `Nat`.  The protocol engine
that owns it is not among the provided sources (only its tests are). -/
def RoutingTable : Type := Nat → Finset Nat

/-- The routing table with no entries. -/
def emptyTable : RoutingTable := fun _ => ∅

/-- Modelled from the spec (§4.D): receiving a peer's inventory replaces
that peer's contribution wholesale — the peer is removed from every
project no longer in its inventory and inserted into every project in it,
atomically per peer (§9). -/
def applyInventory (rt : RoutingTable) (sender : Nat) (inv : Finset Nat) :
    RoutingTable :=
  fun pid => if pid ∈ inv then insert sender (rt pid) else (rt pid).erase sender

/-- Process a sequence of inventory receipts in arrival order. -/
def applyEvents (rt : RoutingTable) (evs : List (Nat × Finset Nat)) : RoutingTable :=
  evs.foldl (fun acc e => applyInventory acc e.fst e.snd) rt

/-- The inventory carried by the last event a given sender contributed,
if any: the peer's latest inventory once the network settles (spec §3:
"a peer's stored inventory is always the highest-versioned one received",
and §4.D only applies strictly fresher inventories). -/
def lastInv (sender : Nat) (evs : List (Nat × Finset Nat)) : Option (Finset Nat) :=
  evs.foldl (fun acc e => if e.fst = sender then some e.snd else acc) none

/-- Folding the last-inventory accumulator from an arbitrary start: the
start only matters when the sender contributed no event. -/
theorem lastInv_foldl (sender : Nat) (evs : List (Nat × Finset Nat))
    (a : Option (Finset Nat)) :
    evs.foldl (fun acc e => if e.fst = sender then some e.snd else acc) a
      = match lastInv sender evs with
        | some x => some x
        | none => a := by
  induction evs generalizing a with
  | nil => rfl
  | cons e evs ih =>
      show evs.foldl _ (if e.fst = sender then some e.snd else a) = _
      rw [ih]
      have h2 : lastInv sender (e :: evs)
          = match lastInv sender evs with
            | some x => some x
            | none => if e.fst = sender then some e.snd else none := by
        show evs.foldl _ (if e.fst = sender then some e.snd else none) = _
        rw [ih]
      rw [h2]
      cases lastInv sender evs with
      | some x => rfl
      | none =>
          by_cases he : e.fst = sender <;> simp [he]

/-- Membership in the routing table after a run of inventory events: a
peer appears under a project iff its last received inventory lists the
project, or it was never heard from and already appeared initially. -/
theorem mem_applyEvents (rt : RoutingTable) (evs : List (Nat × Finset Nat))
    (n pid : Nat) :
    n ∈ applyEvents rt evs pid ↔
      match lastInv n evs with
      | some inv => pid ∈ inv
      | none => n ∈ rt pid := by
  induction evs generalizing rt with
  | nil => simp [applyEvents, lastInv]
  | cons e evs ih =>
      show n ∈ applyEvents (applyInventory rt e.fst e.snd) evs pid ↔ _
      rw [ih]
      have h2 : lastInv n (e :: evs)
          = match lastInv n evs with
            | some x => some x
            | none => if e.fst = n then some e.snd else none := by
        show evs.foldl _ (if e.fst = n then some e.snd else none) = _
        rw [lastInv_foldl]
      rw [h2]
      cases lastInv n evs with
      | some x => rfl
      | none =>
          by_cases he : e.fst = n
          · subst he
            by_cases hp : pid ∈ e.snd <;> simp [applyInventory, hp]
          · have hne : n ≠ e.fst := fun h => he h.symm
            by_cases hp : pid ∈ e.snd <;> simp [applyInventory, hp, he, hne]

/-- A sender that contributed no event has no last inventory. -/
theorem lastInv_eq_none (sender : Nat) (evs : List (Nat × Finset Nat))
    (h : ∀ e ∈ evs, e.fst ≠ sender) : lastInv sender evs = none := by
  induction evs with
  | nil => rfl
  | cons e evs ih =>
      show evs.foldl _ (if e.fst = sender then some e.snd else none) = none
      rw [if_neg (h e (List.mem_cons_self e evs))]
      exact ih fun x hx => h x (List.mem_cons_of_mem e hx)

/-- C1: in a settled, fully-connected network — every event comes from a
peer of `P` other than `self`, and every such peer's last delivered
inventory is its latest one — the peer's routing table maps every project
id to exactly the set of other peers whose latest inventory contains it. -/
theorem routing_table_convergence (P : Finset Nat) (self : Nat)
    (inv : Nat → Finset Nat) (evs : List (Nat × Finset Nat)) (pid : Nat)
    (hsrc : ∀ e ∈ evs, e.fst ∈ P.erase self)
    (hlast : ∀ q ∈ P.erase self, lastInv q evs = some (inv q)) :
    applyEvents emptyTable evs pid
      = (P.erase self).filter (fun q => pid ∈ inv q) := by
  ext n
  rw [mem_applyEvents]
  by_cases hn : n ∈ P.erase self
  · rw [hlast n hn]
    simp [Finset.mem_filter, hn]
  · have hnone : lastInv n evs = none :=
      lastInv_eq_none n evs fun e he heq => hn (heq ▸ hsrc e he)
    rw [hnone]
    simp [emptyTable, Finset.mem_filter, hn]

/-- Ground-truth inventories for the C1 witness. -/
def invC1 : Nat → Finset Nat :=
  fun q => if q = 1 then {5} else if q = 2 then {5, 7} else ∅

/-- Event sequence for the C1 witness: peer 2 first announces an older
inventory, later replaced by its latest one. -/
def evsC1 : List (Nat × Finset Nat) :=
  [(1, {5}), (2, {7}), (2, {5, 7})]

/-- Witness for C1: peers {0,1,2}, self 0; peer 1 hosts project 5, peer 2
hosts projects 5 and 7 after first announcing only 7; looking up project 5
yields exactly {1, 2}. -/
theorem routing_table_convergence_witness :
    ((∀ e ∈ evsC1, e.fst ∈ ({0, 1, 2} : Finset Nat).erase 0) ∧
        (∀ q ∈ ({0, 1, 2} : Finset Nat).erase 0, lastInv q evsC1 = some (invC1 q))) ∧
      applyEvents emptyTable evsC1 5
        = (({0, 1, 2} : Finset Nat).erase 0).filter (fun q => 5 ∈ invC1 q) :=
  ⟨⟨by decide, by decide⟩,
    routing_table_convergence {0, 1, 2} 0 invC1 evsC1 5 (by decide) (by decide)⟩

end Gossip
namespace Protocol

/-- Modelled from the spec (§4.C): disconnect reasons.  `ConnectionError`
and `Timeout` are transient (spec §7 TransportError); `User` is
user-initiated and never retried (§4.B rule 1); `DialError` likewise does
not trigger a reconnect (the reconnect test's first scenario). -/
inductive DisconnectReason
  | user
  | dialError
  | connectionError
  | timeout
deriving DecidableEq, Repr

/-- Whether a disconnect reason is transient, i.e. subject to the
reconnection policy. -/
def DisconnectReason.transient : DisconnectReason → Bool
  | DisconnectReason.connectionError => true
  | DisconnectReason.timeout => true
  | _ => false

/-- Modelled from the spec: the crate constant `MAX_CONNECTION_ATTEMPTS`
used by the reconnect test; its value is not given in the provided
sources, 3 here. -/
def MAX_CONNECTION_ATTEMPTS : Nat := 3

/-- Modelled from the spec (§3, §4.B): the per-peer session attributes the
reconnection policy consults — consecutive attempt count, whether the peer
is persistent, and whether the session was negotiated when the disconnect
arrived. -/
structure Session where
  attempts : Nat
  persistent : Bool
  recentlyNegotiated : Bool
deriving DecidableEq, Repr

/-- Modelled from the spec (§4.B reconnection policy): processing a
`disconnected` event.  Rule 1: a non-transient reason emits nothing and
leaves the attempt count alone.  Rule 3: once `attempts ≥
MAX_CONNECTION_ATTEMPTS` without an intervening negotiation, nothing is
emitted even on transient errors.  Rule 2: a transient reason for a
persistent or recently-negotiated session emits `Connect` and increments
the attempts.  Any processed disconnect leaves the negotiated state, so
`recentlyNegotiated` is cleared.  The returned boolean is whether a
`Connect` command was pushed to the outbox. -/
def disconnectStep (s : Session) (r : DisconnectReason) : Bool × Session :=
  if !r.transient then
    (false, { s with recentlyNegotiated := false })
  else if MAX_CONNECTION_ATTEMPTS ≤ s.attempts then
    (false, { s with recentlyNegotiated := false })
  else if s.persistent || s.recentlyNegotiated then
    (true, { attempts := s.attempts + 1, persistent := s.persistent,
             recentlyNegotiated := false })
  else
    (false, { s with recentlyNegotiated := false })

/-- Modelled from the spec (§4.B rule 4): a successful negotiation resets
the attempt count. -/
def negotiatedStep (s : Session) : Session :=
  { s with attempts := 0, recentlyNegotiated := true }

/-- Process a run of disconnect events with no intervening negotiation. -/
def processDisconnects (s : Session) : List DisconnectReason → Session
  | [] => s
  | r :: rest => processDisconnects (disconnectStep s r).snd rest

/-- A persistent, never-yet-failing peer does get a reconnect on a
transient error (the policy is not vacuous). -/
theorem disconnectStep_emits_below_cap :
    (disconnectStep ⟨0, true, false⟩ DisconnectReason.connectionError).fst = true := by
  decide

/-- `disconnectStep` never changes the `persistent` attribute. -/
theorem disconnectStep_persistent (s : Session) (r : DisconnectReason) :
    ((disconnectStep s r).snd).persistent = s.persistent := by
  unfold disconnectStep
  split_ifs <;> rfl

/-- `disconnectStep` always clears `recentlyNegotiated`: the session is no
longer negotiated after any disconnect. -/
theorem disconnectStep_clears_recent (s : Session) (r : DisconnectReason) :
    ((disconnectStep s r).snd).recentlyNegotiated = false := by
  unfold disconnectStep
  split_ifs <;> rfl

/-- `processDisconnects` preserves `persistent`. -/
theorem processDisconnects_persistent (rs : List DisconnectReason) (s : Session) :
    (processDisconnects s rs).persistent = s.persistent := by
  induction rs generalizing s with
  | nil => rfl
  | cons r rest ih => rw [processDisconnects, ih, disconnectStep_persistent]

/-- After at least one processed disconnect, `recentlyNegotiated` is
cleared and stays cleared. -/
theorem processDisconnects_clears_recent (rs : List DisconnectReason) (s : Session)
    (h : rs ≠ []) : (processDisconnects s rs).recentlyNegotiated = false := by
  induction rs generalizing s with
  | nil => exact absurd rfl h
  | cons r rest ih =>
      cases rest with
      | nil => exact disconnectStep_clears_recent s r
      | cons r2 rest2 => exact ih _ (List.cons_ne_nil r2 rest2)

/-- For a persistent session, each transient disconnect raises the attempt
count by one until it reaches the cap. -/
theorem processDisconnects_attempts (rs : List DisconnectReason) :
    ∀ (a : Nat) (rn : Bool), (∀ x ∈ rs, x.transient = true) →
      min (a + rs.length) MAX_CONNECTION_ATTEMPTS
        ≤ (processDisconnects ⟨a, true, rn⟩ rs).attempts := by
  induction rs with
  | nil =>
      intro a rn _
      simp only [processDisconnects, List.length_nil, Nat.add_zero]
      exact min_le_left _ _
  | cons r rest ih =>
      intro a rn ht
      have hr : r.transient = true := ht r (List.mem_cons_self r rest)
      have hrest : ∀ x ∈ rest, x.transient = true :=
        fun x hx => ht x (List.mem_cons_of_mem r hx)
      rw [processDisconnects]
      by_cases hcap : MAX_CONNECTION_ATTEMPTS ≤ a
      · have hsnd : (disconnectStep ⟨a, true, rn⟩ r).snd = ⟨a, true, false⟩ := by
          unfold disconnectStep
          rw [hr]
          simp [hcap]
        rw [hsnd]
        have h2 := ih a false hrest
        simp only [List.length_cons]
        omega
      · have hsnd : (disconnectStep ⟨a, true, rn⟩ r).snd = ⟨a + 1, true, false⟩ := by
          unfold disconnectStep
          rw [hr]
          simp [hcap]
        rw [hsnd]
        have h2 := ih (a + 1) false hrest
        simp only [List.length_cons]
        omega

/-- C2: after `MAX_CONNECTION_ATTEMPTS` consecutive transient disconnects
processed with no intervening negotiation, a further transient disconnect
for that peer emits no `Connect` command, whatever the session's initial
state. -/
theorem reconnect_attempts_capped (s : Session) (rs : List DisconnectReason)
    (r : DisconnectReason) (hlen : rs.length = MAX_CONNECTION_ATTEMPTS)
    (htrans : ∀ x ∈ rs, x.transient = true) (hr : r.transient = true) :
    (disconnectStep (processDisconnects s rs) r).fst = false := by
  have hne : rs ≠ [] := by
    intro h
    rw [h] at hlen
    exact absurd hlen.symm (by decide)
  obtain ⟨a, p, rn⟩ := s
  cases hp : p with
  | true =>
      subst hp
      have hcap : MAX_CONNECTION_ATTEMPTS
          ≤ (processDisconnects ⟨a, true, rn⟩ rs).attempts := by
        have := processDisconnects_attempts rs a rn htrans
        rw [hlen] at this
        omega
      unfold disconnectStep
      rw [hr]
      simp [hcap]
  | false =>
      subst hp
      have hper : (processDisconnects ⟨a, false, rn⟩ rs).persistent = false := by
        rw [processDisconnects_persistent]
      have hrec : (processDisconnects ⟨a, false, rn⟩ rs).recentlyNegotiated = false :=
        processDisconnects_clears_recent rs _ hne
      unfold disconnectStep
      rw [hr]
      by_cases hcap : MAX_CONNECTION_ATTEMPTS
          ≤ (processDisconnects ⟨a, false, rn⟩ rs).attempts
      · simp [hcap]
      · simp [hcap, hper, hrec]

/-- Witness for C2: a fresh persistent session hit by four consecutive
connection errors — the first three each reconnect, the fourth is
dropped. -/
theorem reconnect_attempts_capped_witness :
    (([DisconnectReason.connectionError, DisconnectReason.connectionError,
          DisconnectReason.connectionError] : List DisconnectReason).length
        = MAX_CONNECTION_ATTEMPTS ∧
      (∀ x ∈ ([DisconnectReason.connectionError, DisconnectReason.connectionError,
          DisconnectReason.connectionError] : List DisconnectReason),
        x.transient = true) ∧
      DisconnectReason.connectionError.transient = true) ∧
      (disconnectStep
          (processDisconnects ⟨0, true, true⟩
            [DisconnectReason.connectionError, DisconnectReason.connectionError,
              DisconnectReason.connectionError])
          DisconnectReason.connectionError).fst = false :=
  ⟨⟨by decide, by decide, by decide⟩,
    reconnect_attempts_capped ⟨0, true, true⟩ _ _ (by decide) (by decide) (by decide)⟩

end Protocol
